import Mathlib

/-!
# Verification of pingora-docker core logic

Shallow embedding of the core logic of the `pingora-docker` reverse proxy:
the domain router (`src/proxy.rs`) and the ACME certificate-provisioning
orchestrator with its DuckDNS TXT publisher (`src/acme.rs`). External
collaborators (the HTTP client, the filesystem, the `instant_acme` protocol
library, the PEM/X.509 parsers) are modelled as oracles passed in as explicit
arguments whose values describe what each external call returns; the embedded
functions then follow the source control flow exactly, including `?`-operator
early returns.
-/

set_option autoImplicit false

deriving instance DecidableEq for Except

namespace Pingora

/-! ## Rust string primitives used by the source -/

/-- Model of Rust `str::starts_with`. -/
def rsStartsWith (s pre : String) : Bool :=
  pre.data.isPrefixOf s.data

/-- Model of Rust `str::ends_with`. -/
def rsEndsWith (s suff : String) : Bool :=
  suff.data.isSuffixOf s.data

/-- ASCII lower-casing of one character (domains are ASCII; Rust
`str::to_lowercase` agrees with this on ASCII input). -/
def asciiLower (c : Char) : Char :=
  if 'A' ≤ c ∧ c ≤ 'Z' then Char.ofNat (c.toNat + 32) else c

/-- Model of Rust `str::to_lowercase` (restricted to ASCII case folding). -/
def rsToLowercase (s : String) : String :=
  String.mk (s.data.map asciiLower)

/-- Model of Rust `s.split(':').next().unwrap_or(s)`: everything before the
first colon (the whole string when there is no colon; the empty string when
the string starts with a colon). -/
def beforeFirstColon (s : String) : String :=
  String.mk (s.data.takeWhile (fun c => c ≠ ':'))

/-- Model of Rust `str::strip_suffix`: `some` of the remainder when `suff`
is a suffix of `s`, otherwise `none`. -/
def rsStripSuffix (s suff : String) : Option String :=
  if suff.data.isSuffixOf s.data then
    some (String.mk (s.data.take (s.data.length - suff.data.length)))
  else
    none

/-! ## Domain router (src/proxy.rs) -/

/-- `BackendConfig` from src/proxy.rs. -/
structure BackendConfig where
  host : String
  port : Nat
  tls : Bool
  sni : Option String
  deriving DecidableEq, Repr

/-- `TlsConfig` from src/proxy.rs. -/
structure TlsConfig where
  cert_path : String
  key_path : String
  enable_h2 : Bool
  duckdns_token : Option String
  acme_production : Bool
  dns_wait_seconds : Nat
  deriving DecidableEq, Repr

/-- `ProxyConfig` from src/proxy.rs. The `domains` HashMap is modelled as an
association list in the map's iteration order (keys unique). -/
structure ProxyConfig where
  listen_addr : String
  tls_listen_addr : Option String
  tls : Option TlsConfig
  debug_mode : Bool
  domains : List (String × BackendConfig)
  default_backend : Option BackendConfig
  deriving DecidableEq, Repr

/-- The wildcard scan inside `DomainRouter::find_backend`: walk the domain
map entries in iteration order; for a key starting with `*.`, the match
suffix is the key minus the leading `*` (`&domain[1..]`), and the first key
whose suffix ends the host wins. -/
def wildcardScan (host : String) : List (String × BackendConfig) → Option BackendConfig
  | [] => none
  | (domain, backend) :: rest =>
    if rsStartsWith domain "*." then
      if rsEndsWith host (domain.drop 1) then some backend
      else wildcardScan host rest
    else wildcardScan host rest

/-- `DomainRouter::find_backend` from src/proxy.rs: exact map lookup, then
the wildcard scan, then the default backend. -/
def find_backend (cfg : ProxyConfig) (host : String) : Option BackendConfig :=
  match cfg.domains.lookup host with
  | some backend => some backend
  | none =>
    match wildcardScan host cfg.domains with
    | some backend => some backend
    | none => cfg.default_backend

/-- The inbound request data consulted by `get_host_from_session`:
`headers.get("host")` and `headers.get(":authority")` are `none` when the
header is absent, `some none` when present but not convertible to a string
(`to_str` fails), and `some (some s)` when present with value `s`;
`uri_host` is `req_header.uri.host()`. -/
structure ReqHeader where
  host_header : Option (Option String)
  authority_header : Option (Option String)
  uri_host : Option String
  deriving DecidableEq, Repr

/-- `DomainRouter::get_host_from_session` from src/proxy.rs: try the `Host`
header, then the `:authority` pseudo-header (each used when present and
string-convertible, with the part before the first colon kept and
lower-cased), then the URI host (lower-cased, no colon stripping). -/
def get_host_from_session (req : ReqHeader) : Option String :=
  match req.host_header with
  | some (some host_str) => some (rsToLowercase (beforeFirstColon host_str))
  | _ =>
    match req.authority_header with
    | some (some auth_str) => some (rsToLowercase (beforeFirstColon auth_str))
    | _ =>
      match req.uri_host with
      | some h => some (rsToLowercase h)
      | none => none

/-- HTTP header names compare case-insensitively. -/
def headerNameEq (a b : String) : Bool :=
  rsToLowercase a == rsToLowercase b

/-- Model of pingora `RequestHeader::insert_header`: replaces any existing
header with the same (case-insensitive) name. -/
def insert_header (headers : List (String × String)) (name value : String) :
    List (String × String) :=
  headers.filter (fun kv => !headerNameEq kv.1 name) ++ [(name, value)]

/-- Case-insensitive header lookup on the modelled header list. -/
def get_header (headers : List (String × String)) (name : String) : Option String :=
  (headers.find? (fun kv => headerNameEq kv.1 name)).map Prod.snd

/-- `DomainRouter::upstream_request_filter` from src/proxy.rs: force the
outbound `Host` header to the inbound one when the inbound request carried a
string-convertible `Host` header; add `X-Forwarded-For` when the client
address is known; always set `X-Forwarded-Proto: http`. -/
def upstream_request_filter (req : ReqHeader) (client_addr : Option String)
    (upstream_headers : List (String × String)) : List (String × String) :=
  let h1 :=
    match req.host_header with
    | some (some host_str) => insert_header upstream_headers "Host" host_str
    | _ => upstream_headers
  let h2 :=
    match client_addr with
    | some addr => insert_header h1 "X-Forwarded-For" addr
    | none => h1
  insert_header h2 "X-Forwarded-Proto" "http"

/-! ## Certificate validator (src/acme.rs, `cert_covers_domains`) -/

/-- A general name inside a SubjectAlternativeName extension, as
`x509_parser` classifies it: a DNS name or anything else. -/
inductive GeneralName where
  | dnsName (s : String)
  | otherName
  deriving DecidableEq, Repr

/-- One parsed X.509 extension: a SubjectAlternativeName with its general
names, or any other extension. -/
inductive CertExtension where
  | subjectAltName (names : List GeneralName)
  | otherExt
  deriving DecidableEq, Repr

/-- A parsed X.509 certificate, reduced to what `cert_covers_domains`
inspects: its extension list. -/
structure X509Cert where
  extensions : List CertExtension
  deriving DecidableEq, Repr

/-- What reading and decoding the certificate file yields, as the external
collaborators (`std::fs::read`, `str::from_utf8`, `rustls_pemfile::certs`,
`x509_parser::parse_x509_certificate`) return it: a read error, non-UTF-8
bytes, or the list of PEM certificate blocks, each with its X.509 parse
result (`none` = that block failed to parse as a certificate).
`rustls_pemfile::certs(..).filter_map(|r| r.ok())` has already dropped
malformed PEM blocks. -/
inductive CertFileRead where
  | readErr
  | notUtf8
  | pem (certs : List (Option X509Cert))
  deriving DecidableEq, Repr

/-- DNS names collected from the SubjectAlternativeName extensions of one
certificate, in order (the loop body of `extract_sans_from_pem`). -/
def dnsNamesOf (c : X509Cert) : List String :=
  c.extensions.flatMap fun ext =>
    match ext with
    | .subjectAltName names =>
      names.filterMap fun n =>
        match n with
        | .dnsName d => some d
        | .otherName => none
    | .otherExt => []

/-- `extract_sans_from_pem` from src/acme.rs: `none` when no PEM certificate
block was found or the first block fails X.509 parsing; otherwise the DNS
names of the first certificate's SAN extensions (possibly the empty list,
when the certificate has no SAN extension or no DNS-type names). -/
def extract_sans_from_pem : List (Option X509Cert) → Option (List String)
  | [] => none
  | none :: _ => none
  | some c :: _ => some (dnsNamesOf c)

/-- `HashSet` equality of two string lists: same elements as sets. -/
def sameStringSet (a b : List String) : Bool :=
  a.all (fun s => b.contains s) && b.all (fun s => a.contains s)

/-- `cert_covers_domains` from src/acme.rs: `false` on read error, non-UTF-8
data, or failed SAN extraction; otherwise the required set and the SAN set
are compared as `HashSet`s. -/
def cert_covers_domains (file : CertFileRead) (required_domains : List String) : Bool :=
  match file with
  | .readErr => false
  | .notUtf8 => false
  | .pem certs =>
    match extract_sans_from_pem certs with
    | none => false
    | some sans => sameStringSet required_domains sans

/-- Does the certificate carry a SubjectAlternativeName extension at all? -/
def hasSanExtension (c : X509Cert) : Bool :=
  c.extensions.any fun ext =>
    match ext with
    | .subjectAltName _ => true
    | .otherExt => false

/-- The coverage condition exactly as claim C3 words it: the file was read,
decoded and parsed, the certificate has a SAN extension, and its DNS SAN set
equals the required set. -/
def coversClaimCond (file : CertFileRead) (required_domains : List String) : Bool :=
  match file with
  | .pem (some c :: _) => hasSanExtension c && sameStringSet required_domains (dnsNamesOf c)
  | _ => false

/-! ## Path helpers (std::path, as used by src/acme.rs) -/

/-- Model of Rust `Path::parent` for the ordinary relative/absolute paths the
program builds: the part before the last `/` (with `some ""` for a bare file
name, as in Rust, and `none` for the empty path). -/
def pathParent (p : String) : Option String :=
  if p.data.contains '/' then
    some (String.mk ((p.data.reverse.dropWhile (fun c => c ≠ '/')).drop 1).reverse)
  else if p = "" then none
  else some ""

/-- Model of Rust `Path::join` for the relative file names the program
appends. -/
def pathJoin (dir file : String) : String :=
  if dir = "" then file else dir ++ "/" ++ file

/-! ## DuckDNS TXT publisher (src/acme.rs) -/

/-- Result of one `reqwest::get(url).await?.text().await?` exchange: a
transport error (propagated by `?`) or the plain-text response body. -/
abbrev HttpResult := Except String String

/-- An HTTP oracle: what body (or transport error) each URL returns. -/
abbrev HttpOracle := String → HttpResult

/-- `domain.strip_suffix(".duckdns.org").unwrap_or(domain)`. -/
def duckSubdomain (domain : String) : String :=
  (rsStripSuffix domain ".duckdns.org").getD domain

/-- The update URL built by `set_duckdns_txt`. -/
def duckdnsSetUrl (subdomain token txt_value : String) : String :=
  "https://www.duckdns.org/update?domains=" ++ subdomain ++ "&token=" ++ token
    ++ "&txt=" ++ txt_value ++ "&verbose=true"

/-- The clear URL built by `clear_duckdns_txt`. -/
def duckdnsClearUrl (subdomain token : String) : String :=
  "https://www.duckdns.org/update?domains=" ++ subdomain ++ "&token=" ++ token
    ++ "&txt=&clear=true"

/-- `set_duckdns_txt` from src/acme.rs: derive the subdomain label, call the
update endpoint; success iff the body starts with `OK`, otherwise an error
carrying the body. -/
def set_duckdns_txt (domain token txt_value : String) (http : HttpOracle) :
    Except String Unit :=
  let subdomain := duckSubdomain domain
  match http (duckdnsSetUrl subdomain token txt_value) with
  | .error e => .error e
  | .ok response =>
    if rsStartsWith response "OK" then .ok ()
    else .error ("DuckDNS API error: " ++ response)

/-- `clear_duckdns_txt` from src/acme.rs: same endpoint with an empty TXT
value and a clear flag; a non-`OK` body is logged and still returns `Ok`,
only a transport error propagates. -/
def clear_duckdns_txt (domain token : String) (http : HttpOracle) :
    Except String Unit :=
  let subdomain := duckSubdomain domain
  match http (duckdnsClearUrl subdomain token) with
  | .error e => .error e
  | .ok response =>
    if rsStartsWith response "OK" then .ok ()
    else .ok ()

/-! ## ACME orchestrator (src/acme.rs, `provision_certificates`) -/

/-- `instant_acme::Identifier`, restricted to the DNS variant the program
constructs. -/
inductive Identifier where
  | dns (s : String)
  deriving DecidableEq, Repr

/-- `instant_acme::AuthorizationStatus`. -/
inductive AuthorizationStatus where
  | pending
  | valid
  | invalid
  | revoked
  | expired
  | deactivated
  deriving DecidableEq, Repr

/-- `instant_acme::OrderStatus`. -/
inductive OrderStatus where
  | pending
  | ready
  | processing
  | valid
  | invalid
  deriving DecidableEq, Repr

/-- `AcmeConfig` from src/acme.rs (paths as strings). -/
structure AcmeConfig where
  domains : List String
  duckdns_token : String
  cert_path : String
  key_path : String
  production : Bool
  dns_wait_seconds : Nat
  account_path : Option String
  deriving DecidableEq, Repr

/-- Observable external actions of one provisioning run, in order. A
`writeFile` event is recorded when an `fs::write` of a certificate artifact
succeeds (the file then exists with that content); `setTxt` / `clearTxt`
record that the DuckDNS call was attempted; `createAccount`, `loadAccount`
and `writeCreds` record the account-bootstrap operations. -/
inductive Ev where
  | createAccount
  | loadAccount (path : String)
  | writeCreds (path : String)
  | newOrder (ids : List Identifier)
  | setTxt (domain : String)
  | clearTxt (domain : String)
  | writeFile (path content : String)
  deriving DecidableEq, Repr

/-- What the external calls of the account-bootstrap step return (src/acme.rs
lines 104-141). `fromCreds` and `createAccount` fold in the fallible
`Account::builder()?` preceding them. -/
structure AccountEnv where
  pathExists : Bool
  readCreds : Except String String
  parseCreds : Except String Unit
  fromCreds : Except String Unit
  createAccount : Except String Unit
  createDirAll : Except String Unit
  serializeCreds : Except String String
  writeCreds : Except String Unit
  deriving Repr

/-- The first authorization of an order: its status, and what
`authz.challenge(ChallengeType::Dns01)` yields when consulted (`some` the
challenge's TXT value `key_authorization().dns_value()`, or `none`). -/
structure AuthzResult where
  status : AuthorizationStatus
  dns01 : Option String
  deriving DecidableEq, Repr

/-- What the external calls made while processing one domain return
(src/acme.rs lines 150-219). `authz` is `authorizations.next().await`;
the fs fields are the successive `create_dir_all` / `fs::write` calls;
`http` answers the DuckDNS set and clear requests. -/
structure DomainEnv where
  newOrder : Except String Unit
  authz : Option (Except String AuthzResult)
  http : HttpOracle
  setReady : Except String Unit
  pollReady : Except String OrderStatus
  finalize : Except String String
  pollCertificate : Except String String
  createDirAll : Except String Unit
  writeDomainCert : Except String Unit
  writeDomainKey : Except String Unit
  writeDefaultCert : Except String Unit
  writeDefaultKey : Except String Unit

/-- Outcome of the loop body for one domain: certificate saved, skipped via
`continue`, or an error propagated by `?` (which aborts the whole run). -/
inductive DomainOutcome where
  | saved
  | skipped
  | errored (e : String)
  deriving DecidableEq, Repr

/-- Result of processing one domain: events, outcome, updated
`first_cert_saved` flag. -/
structure DomainResult where
  evs : List Ev
  outcome : DomainOutcome
  first_cert_saved : Bool
  deriving Repr

/-- The authorization phase for one domain (src/acme.rs lines 159-179): take
the first authorization if any; on `Pending`, select the DNS-01 challenge
(`anyhow` error when absent), publish the TXT value (`?`), wait, and mark the
challenge ready (`?`). Returns the events and `some` error message when a
`?` fired. -/
def authzPhase (cfg : AcmeConfig) (env : DomainEnv) (domain : String) :
    List Ev × Option String :=
  match env.authz with
  | none => ([], none)
  | some (.error e) => ([], some e)
  | some (.ok authz) =>
    if authz.status = AuthorizationStatus.pending then
      match authz.dns01 with
      | none => ([], some "No DNS-01 challenge found")
      | some txt_value =>
        match set_duckdns_txt domain cfg.duckdns_token txt_value env.http with
        | .error e => ([.setTxt domain], some e)
        | .ok () =>
          match env.setReady with
          | .error e => ([.setTxt domain], some e)
          | .ok () => ([.setTxt domain], none)
    else ([], none)

/-- The `if !first_cert_saved` block (src/acme.rs lines 211-216): write the
default cert and key (`?` each) and set the flag. -/
def defaultSavePhase (cfg : AcmeConfig) (env : DomainEnv)
    (key_pem cert_pem : String) (first_cert_saved : Bool) :
    List Ev × Option String × Bool :=
  if first_cert_saved then ([], none, first_cert_saved)
  else
    match env.writeDefaultCert with
    | .error e => ([], some e, first_cert_saved)
    | .ok () =>
      match env.writeDefaultKey with
      | .error e => ([Ev.writeFile cfg.cert_path cert_pem], some e, first_cert_saved)
      | .ok () =>
        ([Ev.writeFile cfg.cert_path cert_pem, Ev.writeFile cfg.key_path key_pem],
         none, true)

/-- The save phase for one domain (src/acme.rs lines 195-219), entered when
the order polled `Ready`: finalize (`?`), poll the certificate (`?`), write
the per-domain artifact files (`?` each), mirror the first success to the
default cert/key pair, then clear the TXT record (`?`). -/
def savePhase (cfg : AcmeConfig) (env : DomainEnv) (domain : String)
    (first_cert_saved : Bool) : DomainResult :=
  match env.finalize with
  | .error e => ⟨[], .errored e, first_cert_saved⟩
  | .ok key_pem =>
    match env.pollCertificate with
    | .error e => ⟨[], .errored e, first_cert_saved⟩
    | .ok cert_pem =>
      let cert_dir := (pathParent cfg.cert_path).getD "."
      let subdomain := duckSubdomain domain
      let domain_cert_path := pathJoin cert_dir (subdomain ++ "_cert.pem")
      let domain_key_path := pathJoin cert_dir (subdomain ++ "_key.pem")
      match env.createDirAll with
      | .error e => ⟨[], .errored e, first_cert_saved⟩
      | .ok () =>
        match env.writeDomainCert with
        | .error e => ⟨[], .errored e, first_cert_saved⟩
        | .ok () =>
          match env.writeDomainKey with
          | .error e => ⟨[.writeFile domain_cert_path cert_pem], .errored e, first_cert_saved⟩
          | .ok () =>
            let evs0 := [Ev.writeFile domain_cert_path cert_pem,
                         Ev.writeFile domain_key_path key_pem]
            match defaultSavePhase cfg env key_pem cert_pem first_cert_saved with
            | (defEvs, some e, first1) => ⟨evs0 ++ defEvs, .errored e, first1⟩
            | (defEvs, none, first1) =>
              match clear_duckdns_txt domain cfg.duckdns_token env.http with
              | .error e => ⟨evs0 ++ defEvs ++ [.clearTxt domain], .errored e, first1⟩
              | .ok () => ⟨evs0 ++ defEvs ++ [.clearTxt domain], .saved, first1⟩

/-- The loop body of `provision_certificates` for one domain (src/acme.rs
lines 147-220): create the single-identifier order (`?`), run the
authorization phase, poll order readiness (`?`); on a non-`Ready` status
clear the TXT record (`?`) and `continue`; on `Ready` run the save phase. -/
def processDomain (cfg : AcmeConfig) (env : DomainEnv) (domain : String)
    (first_cert_saved : Bool) : DomainResult :=
  let orderEv := Ev.newOrder [Identifier.dns domain]
  match env.newOrder with
  | .error e => ⟨[orderEv], .errored e, first_cert_saved⟩
  | .ok () =>
    match authzPhase cfg env domain with
    | (aevs, some e) => ⟨orderEv :: aevs, .errored e, first_cert_saved⟩
    | (aevs, none) =>
      match env.pollReady with
      | .error e => ⟨orderEv :: aevs, .errored e, first_cert_saved⟩
      | .ok status =>
        if status ≠ OrderStatus.ready then
          match clear_duckdns_txt domain cfg.duckdns_token env.http with
          | .error e => ⟨orderEv :: aevs ++ [.clearTxt domain], .errored e, first_cert_saved⟩
          | .ok () => ⟨orderEv :: aevs ++ [.clearTxt domain], .skipped, first_cert_saved⟩
        else
          let sres := savePhase cfg env domain first_cert_saved
          ⟨orderEv :: aevs ++ sres.evs, sres.outcome, sres.first_cert_saved⟩

/-- Result of a whole provisioning run: events, and the run's
`anyhow::Result<()>`. -/
structure RunResult where
  evs : List Ev
  result : Except String Unit
  deriving Repr

/-- The per-domain loop (src/acme.rs line 147): process the domains in input
order, threading `first_cert_saved`; an `errored` outcome aborts the loop
(the `?` early return). Returns the events, the loop's result and the final
flag. `denv i` describes the external world for the i-th domain. -/
def runDomains (cfg : AcmeConfig) (denv : Nat → DomainEnv) (i : Nat) :
    List String → Bool → List Ev × Except String Unit × Bool
  | [], first_cert_saved => ([], .ok (), first_cert_saved)
  | domain :: rest, first_cert_saved =>
    let dres := processDomain cfg (denv i) domain first_cert_saved
    match dres.outcome with
    | .errored e => (dres.evs, .error e, dres.first_cert_saved)
    | _ =>
      let (evs2, r, first2) := runDomains cfg denv (i + 1) rest dres.first_cert_saved
      (dres.evs ++ evs2, r, first2)

/-- The `if let Some(parent) = path.parent() { create_dir_all(parent)? }`
step of the create branch: the directory is created only when the path has a
parent. -/
def createParentDir (env : AccountEnv) (path : String) : Except String Unit :=
  match pathParent path with
  | some _ => env.createDirAll
  | none => Except.ok ()

/-- The account-bootstrap create branch (src/acme.rs lines 111-140): create a
new account against the selected directory (`?`), then, when a credentials
path is configured, create its parent directory (`?`), serialize (`?`) and
write (`?`) the credentials. -/
def createAccountStep (cfg : AcmeConfig) (env : AccountEnv) :
    List Ev × Except String Unit :=
  match env.createAccount with
  | .error e => ([.createAccount], .error e)
  | .ok () =>
    match cfg.account_path with
    | none => ([.createAccount], .ok ())
    | some path =>
      match createParentDir env path with
      | .error e => ([.createAccount], .error e)
      | .ok () =>
        match env.serializeCreds with
        | .error e => ([.createAccount], .error e)
        | .ok _ =>
          match env.writeCreds with
          | .error e => ([.createAccount], .error e)
          | .ok () => ([.createAccount, .writeCreds path], .ok ())

/-- The account bootstrap (src/acme.rs lines 104-141): when a credentials
path is configured and the file exists, read (`?`), parse (`?`) and
reconstitute (`?`) the account from it; otherwise create and persist a new
account. -/
def accountStep (cfg : AcmeConfig) (env : AccountEnv) :
    List Ev × Except String Unit :=
  match cfg.account_path with
  | some path =>
    if env.pathExists then
      match env.readCreds with
      | .error e => ([], .error e)
      | .ok _ =>
        match env.parseCreds with
        | .error e => ([], .error e)
        | .ok () =>
          match env.fromCreds with
          | .error e => ([], .error e)
          | .ok () => ([.loadAccount path], .ok ())
    else createAccountStep cfg env
  | none => createAccountStep cfg env

/-- `provision_certificates` from src/acme.rs: account bootstrap, then the
per-domain loop, then the final `if !first_cert_saved` failure check. -/
def provision_certificates (cfg : AcmeConfig) (aenv : AccountEnv)
    (denv : Nat → DomainEnv) : RunResult :=
  match accountStep cfg aenv with
  | (evs, .error e) => ⟨evs, .error e⟩
  | (evs, .ok ()) =>
    let (evs2, r, first_cert_saved) := runDomains cfg denv 0 cfg.domains false
    match r with
    | .error e => ⟨evs ++ evs2, .error e⟩
    | .ok () =>
      if first_cert_saved then ⟨evs ++ evs2, .ok ()⟩
      else ⟨evs ++ evs2, .error "Failed to provision any certificates"⟩

/-! ## Trace observations -/

/-- The identifier lists of the orders created during a run, in order. -/
def ordersOf (evs : List Ev) : List (List Identifier) :=
  evs.filterMap fun e =>
    match e with
    | .newOrder ids => some ids
    | _ => none

/-- The (path, content) pairs of the certificate artifacts written during a
run, in order. -/
def writesOf (evs : List Ev) : List (String × String) :=
  evs.filterMap fun e =>
    match e with
    | .writeFile p c => some (p, c)
    | _ => none

/-- Is the event part of the account bootstrap (create / load / persist)? -/
def isAccountEv : Ev → Bool
  | .createAccount => true
  | .loadAccount _ => true
  | .writeCreds _ => true
  | _ => false

/-! ## Specification-side definitions

These restate selected claims in the claims' own words, to be compared with
the definitions embedded from the source. -/

/-- The routing rule as claim C4 words it: (1) exact match against the
configured domain keys; (2) the first configured wildcard key `*.suffix`
whose suffix — the key without the leading `*`, hence beginning with a dot —
is a suffix of the host; (3) the configured default backend; (4) no route. -/
def find_backend_spec (cfg : ProxyConfig) (host : String) : Option BackendConfig :=
  match cfg.domains.lookup host with
  | some backend => some backend
  | none =>
    match cfg.domains.find? (fun kv =>
        rsStartsWith kv.1 "*." && decide ((kv.1.drop 1).data <:+ host.data)) with
    | some kv => some kv.2
    | none => cfg.default_backend

/-- First non-empty string among the candidates (claim C5's words: "the
first non-empty value wins"). -/
def firstNonEmptyStr : List (Option String) → Option String
  | [] => none
  | none :: rest => firstNonEmptyStr rest
  | some s :: rest => if s = "" then firstNonEmptyStr rest else some s

/-- Strip a trailing `:port` suffix (claim C5's words): drop everything from
the last colon on; a string without a colon is unchanged. -/
def stripTrailingPort (s : String) : String :=
  if s.data.contains ':' then
    String.mk ((s.data.reverse.dropWhile (fun c => c ≠ ':')).drop 1).reverse
  else s

/-- Host extraction as claim C5 words it: the first non-empty value among
the Host header, the :authority pseudo-header and the URI host wins, and the
chosen host is lower-cased with any trailing `:port` suffix stripped. -/
def get_host_claim (req : ReqHeader) : Option String :=
  match firstNonEmptyStr
      [req.host_header.join, req.authority_header.join, req.uri_host] with
  | some s => some (stripTrailingPort (rsToLowercase s))
  | none => none

/-! ## Concrete fixtures -/

/-- A backend used by the routing examples. -/
def backendW : BackendConfig := ⟨"backend1", 8080, false, none⟩

/-- Router configuration holding only the wildcard key
`*.wild.example.com`. -/
def cfgWild : ProxyConfig where
  listen_addr := "0.0.0.0:8080"
  tls_listen_addr := none
  tls := none
  debug_mode := false
  domains := [("*.wild.example.com", backendW)]
  default_backend := none

/-- A domain environment in which every external call succeeds: pending
authorization with a DNS-01 challenge, `OK` DuckDNS responses, order `Ready`,
certificate `CERTA` with key `KEYA`, all writes fine. -/
def allOkEnv : DomainEnv where
  newOrder := .ok ()
  authz := some (.ok ⟨.pending, some "txtval"⟩)
  http := fun _ => .ok "OK"
  setReady := .ok ()
  pollReady := .ok .ready
  finalize := .ok "KEYA"
  pollCertificate := .ok "CERTA"
  createDirAll := .ok ()
  writeDomainCert := .ok ()
  writeDomainKey := .ok ()
  writeDefaultCert := .ok ()
  writeDefaultKey := .ok ()

/-- Like `allOkEnv`, but every DuckDNS response body is `KO`, so the TXT-set
call returns a non-success body. -/
def envTxtKO : DomainEnv := { allOkEnv with http := fun _ => .ok "KO" }

/-- Like `allOkEnv`, but polling order readiness ends in the terminal status
`invalid`. -/
def envPollInvalid : DomainEnv := { allOkEnv with pollReady := .ok .invalid }

/-- Two-domain provisioning configuration (domains A and B). -/
def cfgAB : AcmeConfig where
  domains := ["a.duckdns.org", "b.duckdns.org"]
  duckdns_token := "tok"
  cert_path := "certs/cert.pem"
  key_path := "certs/key.pem"
  production := false
  dns_wait_seconds := 30
  account_path := none

/-- Single-domain provisioning configuration (domain A only). -/
def cfgA : AcmeConfig := { cfgAB with domains := ["a.duckdns.org"] }

/-- Provisioning configuration with a configured credentials path. -/
def cfgAcct : AcmeConfig := { cfgAB with account_path := some "certs/account.json" }

/-- Account environment: no credentials file yet, every call succeeds. -/
def aenvFresh : AccountEnv where
  pathExists := false
  readCreds := .ok "credsjson"
  parseCreds := .ok ()
  fromCreds := .ok ()
  createAccount := .ok ()
  createDirAll := .ok ()
  serializeCreds := .ok "credsjson"
  writeCreds := .ok ()

/-- Account environment: the credentials file exists and loads fine. -/
def aenvExisting : AccountEnv := { aenvFresh with pathExists := true }

/-- Domain environments for the two-domain scenario of claim C1: domain A
(index 0) succeeds fully, domain B's DuckDNS TXT-set call returns the
non-success body `KO`. -/
def denvAB : Nat → DomainEnv := fun i => if i = 0 then allOkEnv else envTxtKO

/-! ## Helper lemmas -/

theorem rsEndsWith_eq_decide (h s : String) :
    rsEndsWith h s = decide (s.data <:+ h.data) := by
  rw [Bool.eq_iff_iff]
  simp [rsEndsWith, List.isSuffixOf_iff_suffix]

theorem wildcardScan_eq_find? (host : String) (l : List (String × BackendConfig)) :
    wildcardScan host l =
      (l.find? (fun kv =>
        rsStartsWith kv.1 "*." && decide ((kv.1.drop 1).data <:+ host.data))).map
        Prod.snd := by
  induction l with
  | nil => rfl
  | cons kv rest ih =>
    obtain ⟨domain, backend⟩ := kv
    rw [wildcardScan, List.find?]
    by_cases h1 : rsStartsWith domain "*." = true <;>
      by_cases h2 : rsEndsWith host (domain.drop 1) = true <;>
      simp only [h1, h2, ← rsEndsWith_eq_decide] at * <;>
      simp [h1, h2, ih]

theorem sameStringSet_iff (a b : List String) :
    sameStringSet a b = true ↔ ∀ s, (s ∈ a ↔ s ∈ b) := by
  simp only [sameStringSet, Bool.and_eq_true, List.all_eq_true, List.elem_iff]
  constructor
  · rintro ⟨h1, h2⟩ s
    exact ⟨fun hs => h1 s hs, fun hs => h2 s hs⟩
  · intro h
    exact ⟨fun s hs => (h s).1 hs, fun s hs => (h s).2 hs⟩

/-! ## Claim C4 -/

/-- **C4**: the router selects a backend by (1) exact match, (2) the first
wildcard key `*.suffix` whose suffix (the key without the leading `*`) is a
suffix of the host, (3) the default backend, (4) failure — proved as: the
embedded `find_backend` equals the rule as the claim words it, for every
configuration and host; consequently the bare root `wild.example.com` does
not match the wildcard key `*.wild.example.com` while `x.wild.example.com`
does. -/
theorem C4_routing_order :
    (∀ cfg host, find_backend cfg host = find_backend_spec cfg host) ∧
    find_backend cfgWild "x.wild.example.com" = some backendW ∧
    find_backend cfgWild "wild.example.com" = none := by
  refine ⟨?_, by decide, by decide⟩
  intro cfg host
  rw [find_backend, find_backend_spec, wildcardScan_eq_find?]
  cases cfg.domains.lookup host with
  | some b => rfl
  | none =>
    cases cfg.domains.find? (fun kv =>
        rsStartsWith kv.1 "*." && decide ((kv.1.drop 1).data <:+ host.data)) with
    | some kv => rfl
    | none => rfl

/-! ## Claim C5 -/

/-- **C5 counterexample**: the claim says the first NON-EMPTY value wins, but
with a present-and-empty `Host` header and a non-empty `:authority` the code
returns the empty host from the `Host` header (an empty value wins), not the
authority value the claim predicts. -/
theorem C5_counterexample :
    get_host_from_session ⟨some (some ""), some (some "example.com"), none⟩ = some "" ∧
    get_host_claim ⟨some (some ""), some (some "example.com"), none⟩ = some "example.com" ∧
    get_host_from_session ⟨some (some ""), some (some "example.com"), none⟩ ≠
      get_host_claim ⟨some (some ""), some (some "example.com"), none⟩ := by
  decide

/-- **C5 (amended)**: the host is taken from the first source that is present
and string-convertible — even when its value is empty — in the order `Host`
header, `:authority` pseudo-header, URI host; for the two header sources the
part before the FIRST colon is kept and lower-cased, while the URI host is
lower-cased without any port stripping; when no source applies, extraction
fails. -/
theorem C5_amended_host_extraction (req : ReqHeader) :
    (∀ s, req.host_header = some (some s) →
      get_host_from_session req = some (rsToLowercase (beforeFirstColon s))) ∧
    ((∀ s, req.host_header ≠ some (some s)) →
      (∀ s, req.authority_header = some (some s) →
        get_host_from_session req = some (rsToLowercase (beforeFirstColon s))) ∧
      ((∀ s, req.authority_header ≠ some (some s)) →
        get_host_from_session req = req.uri_host.map rsToLowercase)) := by
  obtain ⟨hh, ah, uh⟩ := req
  constructor
  · intro s hs
    cases hs
    rfl
  · intro hno
    have hh2 : hh = none ∨ hh = some none := by
      match hh with
      | none => exact Or.inl rfl
      | some none => exact Or.inr rfl
      | some (some s) => exact absurd rfl (hno s)
    constructor
    · intro s hs
      cases hs
      rcases hh2 with h | h <;> cases h <;> rfl
    · intro hano
      have ah2 : ah = none ∨ ah = some none := by
        match ah with
        | none => exact Or.inl rfl
        | some none => exact Or.inr rfl
        | some (some s) => exact absurd rfl (hano s)
      rcases hh2 with h | h <;> cases h <;> rcases ah2 with h2 | h2 <;> cases h2 <;>
        cases uh <;> rfl

/-- C5 witness: the amended theorem applied to a request carrying only an
`:authority` pseudo-header with mixed case and a port. -/
theorem C5_witness :
    get_host_from_session ⟨none, some (some "App1.Example.com:8443"), none⟩ =
      some "app1.example.com" := by
  have h :=
    ((C5_amended_host_extraction ⟨none, some (some "App1.Example.com:8443"), none⟩).2
      (fun s hs => by cases hs)).1 "App1.Example.com:8443" rfl
  rw [h]
  decide

/-! ## Claim C3 -/

/-- A certificate that parses but carries no SubjectAlternativeName
extension. -/
def certNoSan : X509Cert := ⟨[.otherExt]⟩

/-- **C3 counterexample**: the claim requires a SAN extension for coverage,
but for a parsable certificate WITHOUT any SAN extension and an empty
required-domain set, `cert_covers_domains` returns `true` (the extracted DNS
SAN list is `some []`, which equals the empty required set). -/
theorem C3_counterexample :
    cert_covers_domains (.pem [some certNoSan]) [] = true ∧
    hasSanExtension certNoSan = false ∧
    coversClaimCond (.pem [some certNoSan]) [] = false := by
  decide

/-- **C3 (amended)**: `cert_covers_domains` returns `true` iff the file was
read, decoded and its first PEM block parsed as a certificate, and the DNS
names of its SAN extensions — the empty set when it has no SAN extension —
equal the required set exactly; a missing, unreadable or unparsable file
yields `false` (the function is total and never raises). -/
theorem C3_amended_covers (file : CertFileRead) (req : List String) :
    cert_covers_domains file req = true ↔
      ∃ certs c, file = CertFileRead.pem certs ∧ certs.head? = some (some c) ∧
        (∀ s, (s ∈ req ↔ s ∈ dnsNamesOf c)) := by
  cases file with
  | readErr => simp [cert_covers_domains]
  | notUtf8 => simp [cert_covers_domains]
  | pem certs =>
    cases certs with
    | nil => simp [cert_covers_domains, extract_sans_from_pem]
    | cons hd tl =>
      cases hd with
      | none => simp [cert_covers_domains, extract_sans_from_pem]
      | some c =>
        rw [cert_covers_domains, extract_sans_from_pem]
        rw [sameStringSet_iff]
        constructor
        · intro h
          exact ⟨some c :: tl, c, rfl, rfl, h⟩
        · rintro ⟨certs2, c2, heq, hhd, h⟩
          cases heq
          simp only [List.head?] at hhd
          cases hhd
          exact h

/-- C3 witness: the amended theorem applied to a certificate whose single
SAN DNS name matches the single required domain. -/
theorem C3_witness :
    cert_covers_domains
      (.pem [some ⟨[.subjectAltName [.dnsName "a.duckdns.org"]]⟩])
      ["a.duckdns.org"] = true := by
  rw [C3_amended_covers]
  exact ⟨[some ⟨[.subjectAltName [.dnsName "a.duckdns.org"]]⟩],
    ⟨[.subjectAltName [.dnsName "a.duckdns.org"]]⟩, rfl, rfl,
    (sameStringSet_iff _ _).mp (by decide)⟩

/-! ## Claim C9 -/

/-- **C9**: for any response body delivered by the provider, setting a TXT
record succeeds iff the body begins with the fixed marker `OK`; any other
body becomes an error carrying the raw response text; and clearing a TXT
record returns success whatever the body is — a non-success clear response is
never escalated. -/
theorem C9_duckdns_results (domain token txt_value body : String) :
    (set_duckdns_txt domain token txt_value (fun _ => .ok body) = .ok () ↔
      rsStartsWith body "OK" = true) ∧
    (rsStartsWith body "OK" = false →
      set_duckdns_txt domain token txt_value (fun _ => .ok body) =
        .error ("DuckDNS API error: " ++ body)) ∧
    clear_duckdns_txt domain token (fun _ => .ok body) = .ok () := by
  rw [set_duckdns_txt, clear_duckdns_txt]
  cases h : rsStartsWith body "OK" <;> simp [h]

/-- C9 witness: the theorem applied to the non-success body `KO` and, for
the success direction, the body `OK output`. -/
theorem C9_witness :
    set_duckdns_txt "a.duckdns.org" "tok" "v" (fun _ => .ok "KO") =
      .error ("DuckDNS API error: " ++ "KO") ∧
    set_duckdns_txt "a.duckdns.org" "tok" "v" (fun _ => .ok "OK output") = .ok () ∧
    clear_duckdns_txt "a.duckdns.org" "tok" (fun _ => .ok "KO") = .ok () :=
  ⟨(C9_duckdns_results "a.duckdns.org" "tok" "v" "KO").2.1 (by decide),
   (C9_duckdns_results "a.duckdns.org" "tok" "v" "OK output").1.mpr (by decide),
   (C9_duckdns_results "a.duckdns.org" "tok" "v" "KO").2.2⟩

/-! ## Claim C10 -/

theorem headerNameEq_trans {a b c : String} (h1 : headerNameEq a b = true)
    (h2 : headerNameEq b c = true) : headerNameEq a c = true := by
  simp only [headerNameEq, beq_iff_eq] at h1 h2 ⊢
  exact h1.trans h2

theorem headerNameEq_symm {a b : String} (h : headerNameEq a b = true) :
    headerNameEq b a = true := by
  simp only [headerNameEq, beq_iff_eq] at h ⊢
  exact h.symm

theorem get_header_insert (hs : List (String × String)) (n v m : String) :
    get_header (insert_header hs n v) m =
      if headerNameEq n m = true then some v else get_header hs m := by
  induction hs with
  | nil =>
    cases h : headerNameEq n m <;>
      simp [get_header, insert_header, List.find?, h]
  | cons kv rest ih =>
    cases h1 : headerNameEq kv.1 n with
    | true =>
      cases h2 : headerNameEq n m with
      | true =>
        have h3 : headerNameEq kv.1 m = true := headerNameEq_trans h1 h2
        simp only [insert_header, List.filter, h1, Bool.not_true] at ih ⊢
        simpa [insert_header, h2] using ih
      | false =>
        have h3 : headerNameEq kv.1 m = false := by
          cases hc : headerNameEq kv.1 m with
          | false => rfl
          | true =>
            have := headerNameEq_trans (headerNameEq_symm h1) hc
            rw [this] at h2
            exact absurd h2 (by simp)
        simp only [insert_header, List.filter, h1, Bool.not_true] at ih ⊢
        rw [ih]
        simp [h2, get_header, List.find?_cons, h3]
    | false =>
      cases h3 : headerNameEq kv.1 m with
      | true =>
        have h2 : headerNameEq n m = false := by
          cases hc : headerNameEq n m with
          | false => rfl
          | true =>
            have := headerNameEq_trans hc (headerNameEq_symm h3)
            rw [headerNameEq_symm this] at h1
            exact absurd h1 (by simp)
        simp only [insert_header, List.filter, h1, Bool.not_false] at ih ⊢
        simp [get_header, List.find?, h3, h2]
      | false =>
        simp only [insert_header, List.filter, h1, Bool.not_false] at ih ⊢
        simpa [get_header, List.find?_cons, h3] using ih

/-- **C10**: the forwarded request always carries `X-Forwarded-Proto: http`
(there is no listener-dependent branch in the filter), and the outbound
`Host` header is forced to the inbound value exactly when the inbound request
carried a string-convertible `Host` header; a request identified only by
`:authority` leaves the upstream `Host` header untouched. -/
theorem upstream_request_filter_eq (req : ReqHeader) (client_addr : Option String)
    (up : List (String × String)) :
    upstream_request_filter req client_addr up =
      insert_header
        (match client_addr with
         | some addr =>
           insert_header
             (match req.host_header with
              | some (some s) => insert_header up "Host" s
              | _ => up) "X-Forwarded-For" addr
         | none =>
           match req.host_header with
           | some (some s) => insert_header up "Host" s
           | _ => up)
        "X-Forwarded-Proto" "http" := rfl

theorem C10_upstream_headers (req : ReqHeader) (client_addr : Option String)
    (up : List (String × String)) :
    get_header (upstream_request_filter req client_addr up) "X-Forwarded-Proto" =
      some "http" ∧
    (∀ s, req.host_header = some (some s) →
      get_header (upstream_request_filter req client_addr up) "Host" = some s) ∧
    ((∀ s, req.host_header ≠ some (some s)) →
      get_header (upstream_request_filter req client_addr up) "Host" =
        get_header up "Host") := by
  have e1 : headerNameEq "X-Forwarded-Proto" "X-Forwarded-Proto" = true := by decide
  have e2 : headerNameEq "X-Forwarded-Proto" "Host" = false := by decide
  have e3 : headerNameEq "X-Forwarded-For" "Host" = false := by decide
  have e4 : headerNameEq "Host" "Host" = true := by decide
  refine ⟨?_, ?_, ?_⟩
  · rw [upstream_request_filter_eq, get_header_insert, e1]
    simp
  · intro s hs
    rw [upstream_request_filter_eq, get_header_insert, e2]
    cases client_addr <;>
      simp only [hs] <;>
      simp [get_header_insert, e3, e4]
  · intro hno
    have hh2 : req.host_header = none ∨ req.host_header = some none := by
      match h : req.host_header with
      | none => exact Or.inl rfl
      | some none => exact Or.inr rfl
      | some (some s) => exact absurd h (hno s)
    rw [upstream_request_filter_eq, get_header_insert, e2]
    rcases hh2 with h | h <;> rw [h] <;> cases client_addr <;>
      simp [get_header_insert, e3]

/-- C10 witness: the theorem applied to an HTTP/1.1 request with a `Host`
header and to an HTTP/2 request identified only by `:authority`. -/
theorem C10_witness :
    get_header (upstream_request_filter ⟨some (some "app1.example.com"), none, none⟩
      (some "10.0.0.1") []) "X-Forwarded-Proto" = some "http" ∧
    get_header (upstream_request_filter ⟨some (some "app1.example.com"), none, none⟩
      (some "10.0.0.1") []) "Host" = some "app1.example.com" ∧
    get_header (upstream_request_filter ⟨none, some (some "h2.example.com"), none⟩
      none [("Host", "orig")]) "Host" = some "orig" :=
  ⟨(C10_upstream_headers ⟨some (some "app1.example.com"), none, none⟩
      (some "10.0.0.1") []).1,
   (C10_upstream_headers ⟨some (some "app1.example.com"), none, none⟩
      (some "10.0.0.1") []).2.1 "app1.example.com" rfl,
   by
    rw [(C10_upstream_headers ⟨none, some (some "h2.example.com"), none⟩
      none [("Host", "orig")]).2.2 (fun s hs => by cases hs)]
    decide⟩

/-! ## Orchestrator trace lemmas -/

theorem authzPhase_evs_shape (cfg : AcmeConfig) (env : DomainEnv) (domain : String) :
    (authzPhase cfg env domain).1 = [] ∨
    (authzPhase cfg env domain).1 = [Ev.setTxt domain] := by
  rw [authzPhase]
  rcases env.authz with _ | (e0 | a)
  · exact Or.inl rfl
  · exact Or.inl rfl
  · obtain ⟨st, ch⟩ := a
    by_cases hp : st = AuthorizationStatus.pending
    · rcases ch with _ | txt
      · simp [hp]
      · cases hs : set_duckdns_txt domain cfg.duckdns_token txt env.http with
        | error e => simp [hp, hs]
        | ok u => cases henv : env.setReady <;> simp [hp, hs, henv]
    · simp [hp]

theorem defaultSavePhase_evs_shape (cfg : AcmeConfig) (env : DomainEnv)
    (key_pem cert_pem : String) (b : Bool) :
    (defaultSavePhase cfg env key_pem cert_pem b).1 = [] ∨
    (defaultSavePhase cfg env key_pem cert_pem b).1 =
      [Ev.writeFile cfg.cert_path cert_pem] ∨
    (defaultSavePhase cfg env key_pem cert_pem b).1 =
      [Ev.writeFile cfg.cert_path cert_pem, Ev.writeFile cfg.key_path key_pem] := by
  rw [defaultSavePhase]
  cases b
  · cases env.writeDefaultCert with
    | error e => simp
    | ok u =>
      cases u
      cases env.writeDefaultKey with
      | error e => simp
      | ok u2 => cases u2; simp
  · simp

theorem defaultSavePhase_evs_sub (cfg : AcmeConfig) (env : DomainEnv)
    (key_pem cert_pem : String) (b : Bool) :
    ∀ e ∈ (defaultSavePhase cfg env key_pem cert_pem b).1,
      ∃ p c, e = Ev.writeFile p c := by
  rcases defaultSavePhase_evs_shape cfg env key_pem cert_pem b with h | h | h <;>
    rw [h] <;> intro e he <;> simp at he
  · exact ⟨_, _, he⟩
  · rcases he with he | he
    · exact ⟨_, _, he⟩
    · exact ⟨_, _, he⟩

theorem savePhase_evs_sub (cfg : AcmeConfig) (env : DomainEnv) (domain : String)
    (b : Bool) :
    ∀ e ∈ (savePhase cfg env domain b).evs,
      (∃ p c, e = Ev.writeFile p c) ∨ e = Ev.clearTxt domain := by
  rw [savePhase]
  split
  · simp
  next key_pem heq1 =>
  split
  · simp
  next cert_pem heq2 =>
  split
  · simp
  next heq3 =>
  split
  · simp
  next heq4 =>
  split
  · intro e he
    simp at he
    exact Or.inl ⟨_, _, he⟩
  next heq5 =>
  split
  · next defEvs e2 first1 heq =>
    intro e he
    simp only [List.mem_cons, List.mem_append, List.mem_singleton,
      List.not_mem_nil, or_false, false_or] at he
    have hsub := defaultSavePhase_evs_sub cfg env key_pem cert_pem b
    rw [heq] at hsub
    rcases he with (rfl | rfl) | he
    · exact Or.inl ⟨_, _, rfl⟩
    · exact Or.inl ⟨_, _, rfl⟩
    · exact Or.inl (hsub _ he)
  · next defEvs first1 heq =>
    have hsub := defaultSavePhase_evs_sub cfg env key_pem cert_pem b
    rw [heq] at hsub
    split <;>
      intro e he <;>
      simp only [List.mem_cons, List.mem_append, List.mem_singleton,
        List.not_mem_nil, or_false, false_or] at he <;>
      rcases he with ((rfl | rfl) | he) | rfl <;>
      first
        | exact Or.inl ⟨_, _, rfl⟩
        | exact Or.inr rfl
        | exact Or.inl (hsub _ he)

theorem authzPhase_evs_sub (cfg : AcmeConfig) (env : DomainEnv) (domain : String) :
    ∀ e ∈ (authzPhase cfg env domain).1, e = Ev.setTxt domain := by
  rcases authzPhase_evs_shape cfg env domain with h | h <;> rw [h] <;> simp

theorem processDomain_evs_sub (cfg : AcmeConfig) (env : DomainEnv) (domain : String)
    (b : Bool) :
    ∀ e ∈ (processDomain cfg env domain b).evs,
      e = Ev.newOrder [Identifier.dns domain] ∨ e = Ev.setTxt domain ∨
      e = Ev.clearTxt domain ∨ ∃ p c, e = Ev.writeFile p c := by
  have hA := authzPhase_evs_sub cfg env domain
  have hS := savePhase_evs_sub cfg env domain b
  rw [processDomain]
  split
  · intro e he
    simp at he
    subst he
    exact Or.inl rfl
  next heq0 =>
  split
  · next aevs e2 heq =>
    rw [heq] at hA
    intro e he
    rcases List.mem_cons.mp he with rfl | he
    · exact Or.inl rfl
    · exact Or.inr (Or.inl (hA _ he))
  next aevs heq =>
  rw [heq] at hA
  split
  · intro e he
    rcases List.mem_cons.mp he with rfl | he
    · exact Or.inl rfl
    · exact Or.inr (Or.inl (hA _ he))
  next status heqp =>
  split
  · split <;>
      intro e he <;>
      simp only [List.mem_append, List.mem_cons, List.mem_singleton,
        List.not_mem_nil, or_false] at he <;>
      rcases he with (rfl | he) | rfl <;>
      first
        | exact Or.inl rfl
        | exact Or.inr (Or.inl (hA _ he))
        | exact Or.inr (Or.inr (Or.inl rfl))
  · intro e he
    simp only [List.mem_append, List.mem_cons] at he
    rcases he with (rfl | he) | he
    · exact Or.inl rfl
    · exact Or.inr (Or.inl (hA _ he))
    · rcases hS _ he with h | h
      · exact Or.inr (Or.inr (Or.inr h))
      · exact Or.inr (Or.inr (Or.inl h))

theorem ordersOf_eq_nil_of_no_orders (evs : List Ev)
    (h : ∀ e ∈ evs, ∀ ids, e ≠ Ev.newOrder ids) : ordersOf evs = [] := by
  induction evs with
  | nil => rfl
  | cons a l ih =>
    have ha := h a (List.mem_cons_self a l)
    have hl : ∀ e ∈ l, ∀ ids, e ≠ Ev.newOrder ids :=
      fun e he => h e (List.mem_cons_of_mem a he)
    cases a with
    | newOrder ids => exact absurd rfl (ha ids)
    | createAccount => simpa [ordersOf, List.filterMap_cons] using ih hl
    | loadAccount p => simpa [ordersOf, List.filterMap_cons] using ih hl
    | writeCreds p => simpa [ordersOf, List.filterMap_cons] using ih hl
    | setTxt d => simpa [ordersOf, List.filterMap_cons] using ih hl
    | clearTxt d => simpa [ordersOf, List.filterMap_cons] using ih hl
    | writeFile p c => simpa [ordersOf, List.filterMap_cons] using ih hl

theorem ordersOf_cons_newOrder (ids : List Identifier) (l : List Ev) :
    ordersOf (Ev.newOrder ids :: l) = ids :: ordersOf l := by
  simp [ordersOf, List.filterMap_cons]

theorem ordersOf_append (a b : List Ev) :
    ordersOf (a ++ b) = ordersOf a ++ ordersOf b := by
  simp [ordersOf, List.filterMap_append]

theorem authzPhase_orders (cfg : AcmeConfig) (env : DomainEnv) (domain : String) :
    ordersOf (authzPhase cfg env domain).1 = [] :=
  ordersOf_eq_nil_of_no_orders _ (fun e he ids => by
    have h := authzPhase_evs_sub cfg env domain e he
    cases h
    simp)

theorem savePhase_orders (cfg : AcmeConfig) (env : DomainEnv) (domain : String)
    (b : Bool) :
    ordersOf (savePhase cfg env domain b).evs = [] :=
  ordersOf_eq_nil_of_no_orders _ (fun e he ids => by
    rcases savePhase_evs_sub cfg env domain b e he with ⟨p, c, rfl⟩ | rfl <;> simp)

theorem processDomain_orders (cfg : AcmeConfig) (env : DomainEnv) (domain : String)
    (b : Bool) :
    ordersOf (processDomain cfg env domain b).evs = [[Identifier.dns domain]] := by
  have hA := authzPhase_orders cfg env domain
  have hS := savePhase_orders cfg env domain b
  rw [processDomain]
  split
  · simp [ordersOf, List.filterMap_cons]
  next heq0 =>
  split
  · next aevs e2 heq =>
    rw [heq] at hA
    have hA2 : ordersOf aevs = [] := hA
    show ordersOf (Ev.newOrder [Identifier.dns domain] :: aevs) = _
    rw [ordersOf_cons_newOrder, hA2]
  next aevs heq =>
  rw [heq] at hA
  have hA2 : ordersOf aevs = [] := hA
  split
  · show ordersOf (Ev.newOrder [Identifier.dns domain] :: aevs) = _
    rw [ordersOf_cons_newOrder, hA2]
  next status heqp =>
  split
  · split <;>
      (show ordersOf ((Ev.newOrder [Identifier.dns domain] :: aevs) ++ [Ev.clearTxt domain]) = _
       rw [ordersOf_append, ordersOf_cons_newOrder, hA2]
       simp [ordersOf])
  · show ordersOf ((Ev.newOrder [Identifier.dns domain] :: aevs) ++
        (savePhase cfg env domain b).evs) = _
    rw [ordersOf_append, ordersOf_cons_newOrder, hA2, hS]
    simp

theorem defaultSavePhase_flag (cfg : AcmeConfig) (env : DomainEnv)
    (key_pem cert_pem : String) (b : Bool) :
    (defaultSavePhase cfg env key_pem cert_pem b).2.2 = true →
    b = true ∨
    Ev.writeFile cfg.cert_path cert_pem ∈ (defaultSavePhase cfg env key_pem cert_pem b).1 := by
  cases b
  · rw [defaultSavePhase]
    simp only [Bool.false_eq_true, if_false]
    cases env.writeDefaultCert with
    | error e =>
      intro h
      simp at h
    | ok u =>
      cases u
      cases env.writeDefaultKey with
      | error e =>
        intro h
        simp at h
      | ok u2 =>
        cases u2
        intro h
        simp
  · intro h
    exact Or.inl rfl

theorem savePhase_flag (cfg : AcmeConfig) (env : DomainEnv) (domain : String)
    (b : Bool)
    (h : (savePhase cfg env domain b).first_cert_saved = true) :
    b = true ∨ ∃ c, Ev.writeFile cfg.cert_path c ∈ (savePhase cfg env domain b).evs := by
  rw [savePhase] at h ⊢
  split at h <;> try exact Or.inl h
  next key_pem heq1 =>
  split at h <;> try exact Or.inl h
  next cert_pem heq2 =>
  split at h <;> try exact Or.inl h
  next heq3 =>
  split at h <;> try exact Or.inl h
  next heq4 =>
  split at h <;> try exact Or.inl h
  next heq5 =>
  have hflag := defaultSavePhase_flag cfg env key_pem cert_pem b
  split at h
  · next defEvs e2 first1 heqd =>
    rw [heqd] at hflag
    rcases hflag h with hb | hmem
    · exact Or.inl hb
    · refine Or.inr ⟨cert_pem, ?_⟩
      simp only [List.mem_append, List.mem_cons]
      exact Or.inr hmem
  · next defEvs first1 heqd =>
    rw [heqd] at hflag
    split at h <;>
      rcases hflag h with hb | hmem <;>
      try exact Or.inl hb
    all_goals
      refine Or.inr ⟨cert_pem, ?_⟩
      simp only [List.mem_append, List.mem_cons, List.mem_singleton]
      exact Or.inl (Or.inr hmem)

theorem processDomain_flag (cfg : AcmeConfig) (env : DomainEnv) (domain : String)
    (b : Bool) :
    (processDomain cfg env domain b).first_cert_saved = true →
    b = true ∨ ∃ c, Ev.writeFile cfg.cert_path c ∈ (processDomain cfg env domain b).evs := by
  rw [processDomain]
  split
  · intro h
    exact Or.inl h
  next heq0 =>
  split
  · next aevs e2 heq =>
    intro h
    exact Or.inl h
  next aevs heq =>
  split
  · intro h
    exact Or.inl h
  next status heqp =>
  split
  · split <;> (intro h; exact Or.inl h)
  · intro h
    rcases savePhase_flag cfg env domain b h with hb | ⟨c, hmem⟩
    · exact Or.inl hb
    · refine Or.inr ⟨c, ?_⟩
      simp only [List.mem_append]
      exact Or.inr hmem

theorem processDomain_no_account_evs (cfg : AcmeConfig) (env : DomainEnv)
    (domain : String) (b : Bool) :
    ∀ e ∈ (processDomain cfg env domain b).evs, isAccountEv e = false := by
  intro e he
  rcases processDomain_evs_sub cfg env domain b e he with rfl | rfl | rfl | ⟨p, c, rfl⟩ <;> rfl

theorem runDomains_nil (cfg : AcmeConfig) (denv : Nat → DomainEnv) (i : Nat) (b : Bool) :
    runDomains cfg denv i [] b = ([], .ok (), b) := rfl

theorem runDomains_cons_err (cfg : AcmeConfig) (denv : Nat → DomainEnv) (i : Nat)
    (d : String) (rest : List String) (b : Bool) (e : String)
    (h : (processDomain cfg (denv i) d b).outcome = .errored e) :
    runDomains cfg denv i (d :: rest) b =
      ((processDomain cfg (denv i) d b).evs, .error e,
       (processDomain cfg (denv i) d b).first_cert_saved) := by
  rw [runDomains]
  simp only [h]

theorem runDomains_cons_cont (cfg : AcmeConfig) (denv : Nat → DomainEnv) (i : Nat)
    (d : String) (rest : List String) (b : Bool)
    (h : (processDomain cfg (denv i) d b).outcome = .skipped ∨
         (processDomain cfg (denv i) d b).outcome = .saved) :
    runDomains cfg denv i (d :: rest) b =
      ((processDomain cfg (denv i) d b).evs ++
        (runDomains cfg denv (i + 1) rest (processDomain cfg (denv i) d b).first_cert_saved).1,
       (runDomains cfg denv (i + 1) rest (processDomain cfg (denv i) d b).first_cert_saved).2.1,
       (runDomains cfg denv (i + 1) rest (processDomain cfg (denv i) d b).first_cert_saved).2.2) := by
  rw [runDomains]
  rcases h with h | h <;> simp only [h]

theorem runDomains_flag (cfg : AcmeConfig) (denv : Nat → DomainEnv) :
    ∀ (ds : List String) (i : Nat) (b : Bool),
      (runDomains cfg denv i ds b).2.2 = true →
      b = true ∨ ∃ c, Ev.writeFile cfg.cert_path c ∈ (runDomains cfg denv i ds b).1 := by
  intro ds
  induction ds with
  | nil =>
    intro i b h
    exact Or.inl h
  | cons d rest ih =>
    intro i b
    have hcont : (processDomain cfg (denv i) d b).outcome = .skipped ∨
        (processDomain cfg (denv i) d b).outcome = .saved →
        (runDomains cfg denv i (d :: rest) b).2.2 = true →
        b = true ∨ ∃ c, Ev.writeFile cfg.cert_path c ∈ (runDomains cfg denv i (d :: rest) b).1 := by
      intro ho
      rw [runDomains_cons_cont cfg denv i d rest b ho]
      intro h
      rcases ih (i + 1) (processDomain cfg (denv i) d b).first_cert_saved h with hb | ⟨c, hm⟩
      · rcases processDomain_flag cfg (denv i) d b hb with hb2 | ⟨c, hm⟩
        · exact Or.inl hb2
        · exact Or.inr ⟨c, by simp only [List.mem_append]; exact Or.inl hm⟩
      · exact Or.inr ⟨c, by simp only [List.mem_append]; exact Or.inr hm⟩
    cases ho : (processDomain cfg (denv i) d b).outcome with
    | errored e =>
      rw [runDomains_cons_err cfg denv i d rest b e ho]
      intro h
      rcases processDomain_flag cfg (denv i) d b h with hb | ⟨c, hm⟩
      · exact Or.inl hb
      · exact Or.inr ⟨c, hm⟩
    | skipped => exact hcont (Or.inl ho)
    | saved => exact hcont (Or.inr ho)

theorem runDomains_orders (cfg : AcmeConfig) (denv : Nat → DomainEnv) :
    ∀ (ds : List String) (i : Nat) (b : Bool),
      (∃ k, ordersOf (runDomains cfg denv i ds b).1 =
        (ds.take k).map (fun d => [Identifier.dns d])) ∧
      ((runDomains cfg denv i ds b).2.1 = Except.ok () →
        ordersOf (runDomains cfg denv i ds b).1 =
          ds.map (fun d => [Identifier.dns d])) := by
  intro ds
  induction ds with
  | nil =>
    intro i b
    exact ⟨⟨0, rfl⟩, fun _ => rfl⟩
  | cons d rest ih =>
    intro i b
    have hcont : (processDomain cfg (denv i) d b).outcome = .skipped ∨
        (processDomain cfg (denv i) d b).outcome = .saved →
        (∃ k, ordersOf (runDomains cfg denv i (d :: rest) b).1 =
          ((d :: rest).take k).map (fun d => [Identifier.dns d])) ∧
        ((runDomains cfg denv i (d :: rest) b).2.1 = Except.ok () →
          ordersOf (runDomains cfg denv i (d :: rest) b).1 =
            (d :: rest).map (fun d => [Identifier.dns d])) := by
      intro ho
      rw [runDomains_cons_cont cfg denv i d rest b ho]
      obtain ⟨⟨k, hk⟩, hfull⟩ := ih (i + 1) (processDomain cfg (denv i) d b).first_cert_saved
      constructor
      · refine ⟨k + 1, ?_⟩
        rw [ordersOf_append, processDomain_orders, hk]
        simp
      · intro hok
        rw [ordersOf_append, processDomain_orders, hfull hok]
        simp
    cases ho : (processDomain cfg (denv i) d b).outcome with
    | errored e =>
      rw [runDomains_cons_err cfg denv i d rest b e ho]
      constructor
      · exact ⟨1, by rw [processDomain_orders]; simp⟩
      · intro hok
        exact absurd hok (by simp)
    | skipped => exact hcont (Or.inl ho)
    | saved => exact hcont (Or.inr ho)

theorem runDomains_no_account_evs (cfg : AcmeConfig) (denv : Nat → DomainEnv) :
    ∀ (ds : List String) (i : Nat) (b : Bool),
      ∀ e ∈ (runDomains cfg denv i ds b).1, isAccountEv e = false := by
  intro ds
  induction ds with
  | nil =>
    intro i b e he
    simp [runDomains_nil] at he
  | cons d rest ih =>
    intro i b e
    have hcont : (processDomain cfg (denv i) d b).outcome = .skipped ∨
        (processDomain cfg (denv i) d b).outcome = .saved →
        e ∈ (runDomains cfg denv i (d :: rest) b).1 → isAccountEv e = false := by
      intro ho he
      rw [runDomains_cons_cont cfg denv i d rest b ho] at he
      rcases List.mem_append.mp he with hm | hm
      · exact processDomain_no_account_evs cfg (denv i) d b e hm
      · exact ih (i + 1) (processDomain cfg (denv i) d b).first_cert_saved e hm
    cases ho : (processDomain cfg (denv i) d b).outcome with
    | errored e2 =>
      intro he
      rw [runDomains_cons_err cfg denv i d rest b e2 ho] at he
      exact processDomain_no_account_evs cfg (denv i) d b e he
    | skipped => exact hcont (Or.inl ho)
    | saved => exact hcont (Or.inr ho)

theorem createAccountStep_evs_sub (cfg : AcmeConfig) (aenv : AccountEnv) :
    ∀ e ∈ (createAccountStep cfg aenv).1, isAccountEv e = true := by
  have hsingle : ∀ e ∈ [Ev.createAccount], isAccountEv e = true := by
    intro e he
    simp at he
    subst he
    rfl
  have hdouble : ∀ p, ∀ e ∈ [Ev.createAccount, Ev.writeCreds p], isAccountEv e = true := by
    intro p e he
    simp at he
    rcases he with rfl | rfl <;> rfl
  rw [createAccountStep]
  split
  · exact hsingle
  split
  · exact hsingle
  next path hpa =>
  split
  · exact hsingle
  split
  · exact hsingle
  split
  · exact hsingle
  · exact hdouble path

theorem accountStep_evs_sub (cfg : AcmeConfig) (aenv : AccountEnv) :
    ∀ e ∈ (accountStep cfg aenv).1, isAccountEv e = true := by
  intro e he
  rw [accountStep] at he
  split at he
  · split at he
    · split at he
      · simp at he
      split at he
      · simp at he
      split at he
      · simp at he
      · simp at he
        subst he
        rfl
    · exact createAccountStep_evs_sub cfg aenv e he
  · exact createAccountStep_evs_sub cfg aenv e he

theorem accountStep_orders (cfg : AcmeConfig) (aenv : AccountEnv) :
    ordersOf (accountStep cfg aenv).1 = [] :=
  ordersOf_eq_nil_of_no_orders _ (fun e he ids => by
    have h := accountStep_evs_sub cfg aenv e he
    intro hc
    rw [hc] at h
    simp [isAccountEv] at h)

theorem accountStep_loaded (cfg : AcmeConfig) (aenv : AccountEnv) (path : String)
    (hpath : cfg.account_path = some path) (hex : aenv.pathExists = true) :
    Ev.createAccount ∉ (accountStep cfg aenv).1 ∧
    (∀ p, Ev.writeCreds p ∉ (accountStep cfg aenv).1) ∧
    ((accountStep cfg aenv).2 = Except.ok () →
      (accountStep cfg aenv).1 = [Ev.loadAccount path]) := by
  rw [accountStep, hpath]
  simp only [hex, if_true]
  split
  · simp
  split
  · simp
  split
  · simp
  · simp

theorem provision_shape (cfg : AcmeConfig) (aenv : AccountEnv) (denv : Nat → DomainEnv) :
    (provision_certificates cfg aenv denv).evs =
      (accountStep cfg aenv).1 ++
        (if (accountStep cfg aenv).2 = Except.ok () then
          (runDomains cfg denv 0 cfg.domains false).1 else []) ∧
    ((provision_certificates cfg aenv denv).result = Except.ok () ↔
      (accountStep cfg aenv).2 = Except.ok () ∧
      (runDomains cfg denv 0 cfg.domains false).2.1 = Except.ok () ∧
      (runDomains cfg denv 0 cfg.domains false).2.2 = true) := by
  rw [provision_certificates]
  generalize accountStep cfg aenv = accr
  obtain ⟨aevs, ares⟩ := accr
  rcases ares with e | u
  · constructor
    · simp
    · simp
  · cases u
    generalize runDomains cfg denv 0 cfg.domains false = runr
    obtain ⟨evs2, r, first⟩ := runr
    rcases r with e | u2
    · constructor
      · simp
      · simp
    · cases u2
      cases first <;> simp

/-! ## Claim C1 -/

/-- **C1 counterexample**: in the two-domain batch where A succeeds fully and
B's TXT-set call returns the non-success body `KO`, a certificate WAS saved
(A's artifacts and the default pair exist, nothing of B's does), yet the
batch call returns the propagated error instead of the overall success the
claim predicts. -/
theorem C1_counterexample :
    (provision_certificates cfgAB aenvFresh denvAB).result =
      Except.error "DuckDNS API error: KO" ∧
    Ev.writeFile "certs/cert.pem" "CERTA" ∈
      (provision_certificates cfgAB aenvFresh denvAB).evs ∧
    writesOf (provision_certificates cfgAB aenvFresh denvAB).evs =
      [("certs/a_cert.pem", "CERTA"), ("certs/a_key.pem", "KEYA"),
       ("certs/cert.pem", "CERTA"), ("certs/key.pem", "KEYA")] := by
  decide

/-- **C1 (amended)**: the batch reports success ONLY IF at least one domain
produced a saved certificate (success implies the default certificate file
was written during the run); the "if" direction fails: an error propagated
from any step — such as a non-success TXT-set body for a later domain —
aborts the whole run with an error even when an earlier domain already saved
its certificate, as in the two-domain scenario. -/
theorem C1_amended_batch_result :
    (∀ (cfg : AcmeConfig) (aenv : AccountEnv) (denv : Nat → DomainEnv),
      (provision_certificates cfg aenv denv).result = Except.ok () →
      ∃ c, Ev.writeFile cfg.cert_path c ∈ (provision_certificates cfg aenv denv).evs) ∧
    (provision_certificates cfgAB aenvFresh denvAB).result =
      Except.error "DuckDNS API error: KO" := by
  constructor
  · intro cfg aenv denv hok
    obtain ⟨hevs, hiff⟩ := provision_shape cfg aenv denv
    obtain ⟨hacc, hrun, hflag⟩ := hiff.mp hok
    rcases runDomains_flag cfg denv cfg.domains 0 false hflag with hb | ⟨c, hm⟩
    · exact absurd hb (by simp)
    · refine ⟨c, ?_⟩
      rw [hevs, if_pos hacc]
      simp only [List.mem_append]
      exact Or.inr hm
  · decide

/-- C1 witness: the amended theorem applied to a fully successful
single-domain run. -/
theorem C1_witness :
    ∃ c, Ev.writeFile cfgA.cert_path c ∈
      (provision_certificates cfgA aenvFresh (fun _ => allOkEnv)).evs :=
  C1_amended_batch_result.1 cfgA aenvFresh (fun _ => allOkEnv) (by decide)

/-! ## Claim C2 -/

/-- **C2**: when polling order readiness ends with a terminal status other
than `ready` (per the spec the wall-clock timeout of the polling policy also
surfaces this way), the orchestrator clears that domain's TXT record and
moves on to the next domain without failing the batch: the loop-body outcome
is `skipped`, the clear call is in the trace, the first-cert flag is
unchanged and the batch continues exactly as the run over the remaining
domains. -/
theorem C2_nonready_skips (cfg : AcmeConfig) (env : DomainEnv) (domain : String)
    (first : Bool) (s : OrderStatus)
    (hord : env.newOrder = Except.ok ())
    (hauthz : (authzPhase cfg env domain).2 = none)
    (hpoll : env.pollReady = Except.ok s) (hs : s ≠ OrderStatus.ready)
    (hclear : ∃ body,
      env.http (duckdnsClearUrl (duckSubdomain domain) cfg.duckdns_token) =
        Except.ok body) :
    (processDomain cfg env domain first).outcome = DomainOutcome.skipped ∧
    Ev.clearTxt domain ∈ (processDomain cfg env domain first).evs ∧
    (processDomain cfg env domain first).first_cert_saved = first ∧
    (∀ (denv : Nat → DomainEnv) (i : Nat) (rest : List String), denv i = env →
      runDomains cfg denv i (domain :: rest) first =
        ((processDomain cfg env domain first).evs ++
          (runDomains cfg denv (i + 1) rest first).1,
         (runDomains cfg denv (i + 1) rest first).2)) := by
  have hclear2 : clear_duckdns_txt domain cfg.duckdns_token env.http = Except.ok () := by
    obtain ⟨body, hb⟩ := hclear
    simp only [clear_duckdns_txt]
    rw [hb]
    cases rsStartsWith body "OK" <;> simp
  have hproc : processDomain cfg env domain first =
      ⟨Ev.newOrder [Identifier.dns domain] :: (authzPhase cfg env domain).1 ++
        [Ev.clearTxt domain], DomainOutcome.skipped, first⟩ := by
    rw [processDomain, hord]
    revert hauthz
    generalize authzPhase cfg env domain = ares
    obtain ⟨aevs, aerr⟩ := ares
    intro hauthz
    have haerr : aerr = none := hauthz
    subst haerr
    rw [hpoll]
    simp only [hclear2, if_pos hs]
  refine ⟨by rw [hproc], ?_, by rw [hproc], ?_⟩
  · rw [hproc]
    simp
  · intro denv i rest hdenv
    have ho : (processDomain cfg (denv i) domain first).outcome =
        DomainOutcome.skipped := by
      rw [hdenv, hproc]
    rw [runDomains_cons_cont cfg denv i domain rest first (Or.inl ho), hdenv, hproc]

/-- C2 witness: the theorem applied to an environment where the order polls
to the terminal status `invalid` and the clear call returns a body. -/
theorem C2_witness :
    (processDomain cfgAB envPollInvalid "a.duckdns.org" false).outcome =
      DomainOutcome.skipped ∧
    Ev.clearTxt "a.duckdns.org" ∈
      (processDomain cfgAB envPollInvalid "a.duckdns.org" false).evs := by
  have h := C2_nonready_skips cfgAB envPollInvalid "a.duckdns.org" false
    OrderStatus.invalid rfl (by decide) rfl (by decide) ⟨"OK", rfl⟩
  exact ⟨h.1, h.2.1⟩

/-! ## Claim C6 -/

theorem savePhase_finished_clears (cfg : AcmeConfig) (env : DomainEnv)
    (domain : String) (b : Bool) :
    (savePhase cfg env domain b).outcome = DomainOutcome.skipped ∨
    (savePhase cfg env domain b).outcome = DomainOutcome.saved →
    Ev.clearTxt domain ∈ (savePhase cfg env domain b).evs := by
  rw [savePhase]
  split
  · intro h
    rcases h with h | h <;> simp at h
  next key_pem heq1 =>
  split
  · intro h
    rcases h with h | h <;> simp at h
  next cert_pem heq2 =>
  split
  · intro h
    rcases h with h | h <;> simp at h
  next heq3 =>
  split
  · intro h
    rcases h with h | h <;> simp at h
  next heq4 =>
  split
  · intro h
    rcases h with h | h <;> simp at h
  next heq5 =>
  split
  · next defEvs e2 first1 heqd =>
    intro h
    rcases h with h | h <;> simp at h
  · next defEvs first1 heqd =>
    split
    · intro h
      rcases h with h | h <;> simp at h
    · intro h
      simp

/-- **C6 counterexample**: for a domain whose TXT-set call returns a
non-success body, the loop body ends in a propagated error and its trace
contains NO clear attempt — cleanup is skipped entirely, contradicting
"cleanup is unconditional and best-effort after finishing each domain". -/
theorem C6_counterexample :
    (processDomain cfgAB envTxtKO "b.duckdns.org" false).outcome =
      DomainOutcome.errored "DuckDNS API error: KO" ∧
    Ev.clearTxt "b.duckdns.org" ∉
      (processDomain cfgAB envTxtKO "b.duckdns.org" false).evs := by
  decide

/-- **C6 (amended)**: the TXT record is cleared exactly on the two
non-erroring exits of the per-domain loop body — the non-ready skip path and
the certificate-saved path; an error propagated from any step aborts the
domain (and the whole run) WITHOUT attempting cleanup. -/
theorem C6_amended_cleanup (cfg : AcmeConfig) (env : DomainEnv) (domain : String)
    (first : Bool)
    (h : (processDomain cfg env domain first).outcome = DomainOutcome.skipped ∨
         (processDomain cfg env domain first).outcome = DomainOutcome.saved) :
    Ev.clearTxt domain ∈ (processDomain cfg env domain first).evs := by
  revert h
  rw [processDomain]
  split
  · intro h
    rcases h with h | h <;> simp at h
  next heq0 =>
  split
  · next aevs e2 heq =>
    intro h
    rcases h with h | h <;> simp at h
  next aevs heq =>
  split
  · intro h
    rcases h with h | h <;> simp at h
  next status heqp =>
  split
  · split <;>
      intro h <;>
      simp
  · intro h
    have hs := savePhase_finished_clears cfg env domain first h
    simp only [List.mem_cons, List.mem_append]
    exact Or.inr hs

/-- C6 witness: the amended theorem applied to a skip path (order polls to
`invalid`). -/
theorem C6_witness :
    Ev.clearTxt "a.duckdns.org" ∈
      (processDomain cfgA envPollInvalid "a.duckdns.org" false).evs :=
  C6_amended_cleanup cfgA envPollInvalid "a.duckdns.org" false (Or.inl (by decide))

/-! ## Claim C7 -/

/-- **C7**: when a credentials path is configured and the file exists at the
start of the run, no create-account call is ever issued during the whole run,
the credentials file is never written, and whenever the bootstrap step
succeeds the account is reconstituted from the file (the load event is in the
run's trace). -/
theorem C7_account_reuse (cfg : AcmeConfig) (aenv : AccountEnv)
    (denv : Nat → DomainEnv) (path : String)
    (hpath : cfg.account_path = some path) (hex : aenv.pathExists = true) :
    Ev.createAccount ∉ (provision_certificates cfg aenv denv).evs ∧
    (∀ p, Ev.writeCreds p ∉ (provision_certificates cfg aenv denv).evs) ∧
    ((accountStep cfg aenv).2 = Except.ok () →
      Ev.loadAccount path ∈ (provision_certificates cfg aenv denv).evs) := by
  obtain ⟨hca, hwc, hload⟩ := accountStep_loaded cfg aenv path hpath hex
  obtain ⟨hevs, _⟩ := provision_shape cfg aenv denv
  have hrun := runDomains_no_account_evs cfg denv cfg.domains 0 false
  rw [hevs]
  refine ⟨?_, ?_, ?_⟩
  · intro hmem
    rcases List.mem_append.mp hmem with hm | hm
    · exact hca hm
    · by_cases hacc2 : (accountStep cfg aenv).2 = Except.ok ()
      · rw [if_pos hacc2] at hm
        have := hrun _ hm
        simp [isAccountEv] at this
      · rw [if_neg hacc2] at hm
        simp at hm
  · intro p hmem
    rcases List.mem_append.mp hmem with hm | hm
    · exact hwc p hm
    · by_cases hacc2 : (accountStep cfg aenv).2 = Except.ok ()
      · rw [if_pos hacc2] at hm
        have := hrun _ hm
        simp [isAccountEv] at this
      · rw [if_neg hacc2] at hm
        simp at hm
  · intro hok
    apply List.mem_append.mpr
    left
    rw [hload hok]
    simp

/-- C7 witness: a run with an existing credentials file that loads fine never
creates an account and records the load. -/
theorem C7_witness :
    Ev.createAccount ∉
      (provision_certificates cfgAcct aenvExisting (fun _ => allOkEnv)).evs ∧
    Ev.loadAccount "certs/account.json" ∈
      (provision_certificates cfgAcct aenvExisting (fun _ => allOkEnv)).evs := by
  have h := C7_account_reuse cfgAcct aenvExisting (fun _ => allOkEnv)
    "certs/account.json" rfl rfl
  exact ⟨h.1, h.2.2 (by decide)⟩

/-! ## Claim C8 -/

/-- **C8**: every order the orchestrator creates contains exactly one DNS
identifier, and the orders are created sequentially in input order: the
trace's order list is always the image of a prefix of the configured domains
(a prefix because an error can abort the run part-way), and whenever the run
returns success every requested domain got exactly its own
single-identifier order. -/
theorem C8_one_order_per_domain (cfg : AcmeConfig) (aenv : AccountEnv)
    (denv : Nat → DomainEnv) :
    (∃ k, ordersOf (provision_certificates cfg aenv denv).evs =
      (cfg.domains.take k).map (fun d => [Identifier.dns d])) ∧
    ((provision_certificates cfg aenv denv).result = Except.ok () →
      ordersOf (provision_certificates cfg aenv denv).evs =
        cfg.domains.map (fun d => [Identifier.dns d])) := by
  obtain ⟨hevs, hiff⟩ := provision_shape cfg aenv denv
  obtain ⟨⟨k, hk⟩, hfull⟩ := runDomains_orders cfg denv cfg.domains 0 false
  rw [hevs]
  constructor
  · by_cases hacc : (accountStep cfg aenv).2 = Except.ok ()
    · refine ⟨k, ?_⟩
      rw [if_pos hacc, ordersOf_append, accountStep_orders, hk]
      simp
    · refine ⟨0, ?_⟩
      rw [if_neg hacc, ordersOf_append, accountStep_orders]
      simp [ordersOf]
  · intro hok
    obtain ⟨hacc, hrun, _⟩ := hiff.mp hok
    rw [if_pos hacc, ordersOf_append, accountStep_orders, hfull hrun]
    simp

/-- C8 witness: a fully successful single-domain run creates exactly the one
single-identifier order for that domain. -/
theorem C8_witness :
    ordersOf (provision_certificates cfgA aenvFresh (fun _ => allOkEnv)).evs =
      cfgA.domains.map (fun d => [Identifier.dns d]) :=
  (C8_one_order_per_domain cfgA aenvFresh (fun _ => allOkEnv)).2 (by decide)

end Pingora
